import Mathlib

/-!
Verification development for the ASTRACAT DNS resolver
(src/main.rs, src/cache.rs, src/resolver.rs).

The resolver's data model and operations are embedded shallowly:
machine integers become Nat, the shared DashMap cache becomes an
association list threaded through the functions, the tokio transport
becomes an explicit environment giving each upstream server's outcome,
and Instant becomes a Nat timestamp.  The unbounded delegation loop and
the recursion of recursive_lookup_with_cache are driven by an explicit
fuel parameter; every theorem quantifies over, or supplies, enough fuel.
Wire-format encoding and decoding live in the external hickory_proto
codec; the few codec entry points the repository calls (Message
constructors, Name rendering, record accessors) are embedded from that
library's documented behaviour and marked as such.
-/

set_option linter.unusedVariables false

namespace AstracatDns

/-- DNS record-type tag (hickory_proto RecordType as used by resolver.rs:
A, AAAA, NS, CNAME, plus a catch-all for every other code). -/
inductive RecordType where
  | A
  | AAAA
  | NS
  | CNAME
  | other (code : Nat)
deriving DecidableEq, Repr

/-- An IP address (std::net::IpAddr): four octets or eight 16-bit groups. -/
inductive IpAddr where
  | v4 (a b c d : Nat)
  | v6 (a b c d e f g h : Nat)
deriving DecidableEq, Repr

/-- A domain name (hickory_proto Name): labels with their original spelling
preserved, plus the fully-qualified flag. -/
structure Name where
  labels : List String
  isFqdn : Bool
deriving DecidableEq, Repr

/-- The root name "." (hickory Name::from_ascii "."). -/
def rootName : Name := ⟨[], true⟩

/-- Models the external codec: hickory Name's Display (Name::to_string),
which joins the labels with dots exactly as spelled (no lower-casing) and
appends the trailing dot only for a fully-qualified name; the root renders
as ".". -/
def nameToString (n : Name) : String :=
  if n.labels = [] then (if n.isFqdn then "." else "")
  else String.intercalate "." n.labels ++ (if n.isFqdn then "." else "")

/-- Models the external codec: hickory Name's PartialEq, which compares
names label by label ignoring ASCII case. -/
def nameEqCI (a b : Name) : Bool :=
  (a.labels.map (fun l => l.toList.map Char.toLower)
      == b.labels.map (fun l => l.toList.map Char.toLower))
    && (a.isFqdn == b.isFqdn)

/-- Record data (hickory_proto RData), pattern-matched by the resolver on
A, AAAA, NS and CNAME. -/
inductive RData where
  | a (ip : IpAddr)
  | aaaa (ip : IpAddr)
  | ns (target : Name)
  | cname (target : Name)
  | otherData (len : Nat)
deriving DecidableEq, Repr

/-- A resource record: owner name, type tag, TTL in seconds, data. -/
structure Record where
  name : Name
  rtype : RecordType
  ttl : Nat
  data : RData
deriving DecidableEq, Repr

/-- A question (hickory_proto op::Query): name and query type. -/
structure Query where
  name : Name
  qtype : RecordType
deriving DecidableEq, Repr

/-- A DNS message: header fields and the four sections, as resolver.rs
reads and builds them through the codec. -/
structure Message where
  id : Nat
  opCode : Nat
  isResponse : Bool
  responseCode : Nat
  rd : Bool
  ra : Bool
  queries : List Query
  answers : List Record
  nameServers : List Record
  additionals : List Record
deriving DecidableEq, Repr

/-- ResponseCode::ServFail's code. -/
def rcServFail : Nat := 2

/-- ResponseCode::NoError's code. -/
def rcNoError : Nat := 0

/-- Models the external codec: hickory Message::response(id, op_code) — a
fresh response message carrying the given id and op-code, every flag clear
and every section empty. -/
def Message.response (id opCode : Nat) : Message :=
  { id := id, opCode := opCode, isResponse := true, responseCode := rcNoError,
    rd := false, ra := false, queries := [], answers := [], nameServers := [],
    additionals := [] }

/-- Models the external codec: hickory Message::error_msg(id, op_code, rc) —
a fresh response message with the given id, op-code and response code; it
does not set recursion_available. -/
def error_msg (id opCode responseCode : Nat) : Message :=
  { Message.response id opCode with responseCode := responseCode }

/-- The upstream request built at resolver.rs lines 237-248: a query message
with a fresh id, recursion_desired cleared, and the single question
(name, record_type). -/
def build_upstream_request (id : Nat) (name : Name) (rt : RecordType) : Message :=
  { id := id, opCode := 0, isResponse := false, responseCode := rcNoError,
    rd := false, ra := false, queries := [⟨name, rt⟩], answers := [],
    nameServers := [], additionals := [] }

/-- cache.rs: type CacheKey = (String, RecordType). -/
abbrev CacheKey := String × RecordType

/-- cache.rs: CacheEntry { records, expires_at } with Instant as Nat. -/
structure CacheEntry where
  records : List Record
  expiresAt : Nat
deriving DecidableEq, Repr

/-- cache.rs: the shared DashMap<CacheKey, CacheEntry>, embedded as an
association list threaded through the resolver. -/
abbrev Cache := List (CacheKey × CacheEntry)

/-- DashMap::get on the embedded cache. -/
def cacheGet (k : CacheKey) (c : Cache) : Option CacheEntry :=
  (c.find? (fun p => decide (p.1 = k))).map (·.2)

/-- DashMap::remove on the embedded cache. -/
def cacheRemove (k : CacheKey) (c : Cache) : Cache :=
  c.filter (fun p => !decide (p.1 = k))

/-- DashMap::insert on the embedded cache (overwrites any entry at the key). -/
def cacheInsert (k : CacheKey) (v : CacheEntry) (c : Cache) : Cache :=
  (k, v) :: cacheRemove k c

/-- MAX_UDP_PAYLOAD_SIZE (resolver.rs line 24). -/
def MAX_UDP_PAYLOAD_SIZE : Nat := 512

/-- extract_ip_from_rdata (resolver.rs lines 352-358). -/
def extract_ip_from_rdata : RData → Option IpAddr
  | .a ip => some ip
  | .aaaa ip => some ip
  | _ => none

/-- ROOT_SERVERS (resolver.rs lines 35-62): the thirteen roots a-m, IPv4
before IPv6 within each root. -/
def ROOT_SERVERS : List IpAddr :=
  [ .v4 198 41 0 4, .v6 0x2001 0x503 0xba3e 0 0 0 0 0x2,
    .v4 199 9 14 201, .v6 0x2001 0x500 0x200 0 0 0 0 0xb,
    .v4 192 33 4 12, .v6 0x2001 0x500 0x2e 0 0 0 0 0x2,
    .v4 199 7 91 13, .v6 0x2001 0x500 0x2d 0 0 0 0 0xd,
    .v4 192 203 230 10, .v6 0x2001 0x500 0xa8 0 0 0 0 0x2,
    .v4 192 5 5 241, .v6 0x2001 0x500 0x2f 0 0 0 0 0xf,
    .v4 192 112 36 4, .v6 0x2001 0x500 0x12 0 0 0 0 0xd0d,
    .v4 198 97 190 53, .v6 0x2001 0x500 0x1 0 0 0 0 0x53,
    .v4 192 36 148 17, .v6 0x2001 0x7fe 0 0 0 0 0 0x33,
    .v4 192 58 128 30, .v6 0x2001 0x503 0xc27 0 0 0 0 0x2,
    .v4 193 0 14 129, .v6 0x2001 0x7fd 0 0 0 0 0 0x1,
    .v4 199 7 83 42, .v6 0x2001 0x500 0x9f 0 0 0 0 0x42,
    .v4 202 12 27 33, .v6 0x2001 0xdc3 0 0 0 0 0 0x35 ]

/-- What one send_udp_query attempt against one server yields: a transport
timeout/error, a datagram that fails to decode as a Message, or a decoded
Message. -/
inductive UdpOutcome where
  | timeout
  | garbage
  | ok (m : Message)
deriving DecidableEq, Repr

/-- The decoded message of an outcome, if any. -/
def decodes? : UdpOutcome → Option Message
  | .ok m => some m
  | _ => none

/-- The network environment: what querying a given (name, type) at a given
upstream address yields. -/
abbrev Env := Name → RecordType → IpAddr → UdpOutcome

/-- The selection loop of resolver.rs lines 256-265: await the per-server
futures in submission order and keep the first outcome that arrives and
decodes as a Message, ignoring everything after it. -/
def selectResponse : List UdpOutcome → Option Message
  | [] => none
  | .ok m :: _ => some m
  | .timeout :: rest => selectResponse rest
  | .garbage :: rest => selectResponse rest

/-- Stated from the spec's words for step 3 of the resolver state machine:
take the first successfully decoded response in submission order, ignoring
the rest. -/
def specFirstDecoded (outs : List UdpOutcome) : Option Message :=
  outs.findSome? decodes?

/-- One upstream query the resolver issued: the question, the target server
and the recursion depth at which it was sent. -/
structure QLog where
  name : Name
  rt : RecordType
  server : IpAddr
  depth : Nat
deriving DecidableEq, Repr

/-- The branch the resolver's loop body takes on a selected response
(resolver.rs lines 272-330): answers present, CNAME chase, delegation
descent, or termination with the (empty) authority section. -/
inductive StepAction where
  | answered (answers auths : List Record)
  | chase (target : Name)
  | delegate (nsRecs additionals : List Record)
  | terminal (auths : List Record)
deriving DecidableEq, Repr

/-- The branches at resolver.rs lines 287-330, reached when the answer
section is empty and no CNAME chase fired. -/
def stepTail (resp : Message) : StepAction :=
  if !resp.nameServers.isEmpty then .delegate resp.nameServers resp.additionals
  else .terminal resp.nameServers

/-- The branch structure of the loop body (resolver.rs lines 272-330):
first the non-empty-answers return, then the CNAME search over the answer
section (a record of CNAME type whose data is not CNAME falls through),
then delegation, then termination. -/
def stepOf (resp : Message) : StepAction :=
  if !resp.answers.isEmpty then .answered resp.answers resp.nameServers
  else
    match resp.answers.find? (fun r => r.rtype == RecordType.CNAME) with
    | some rec =>
      match rec.data with
      | .cname t => .chase t
      | _ => stepTail resp
    | none => stepTail resp

/-- The cache key used by the step-4 insertion at resolver.rs line 276:
the verbatim Display rendering of the call's name, with the record type. -/
def step4CacheKey (name : Name) (rt : RecordType) : CacheKey :=
  (nameToString name, rt)

deriving instance DecidableEq for Except

/-- Result of running a resolver job: the call's Result, the cache after
the shared mutations, the upstream queries issued, and (for the glue-less
NS sub-resolution job only) the collected IPs. -/
structure RunOut where
  res : Except Unit (List Record × List Record)
  cache : Cache
  trace : List QLog
  ips : List IpAddr
deriving DecidableEq, Repr

/-- A pending piece of recursive_lookup_with_cache: a whole call, the
server loop, the dispatch on a selected response, or the glue-less NS
sub-resolution walk over the NS names. -/
inductive RJob where
  | call (name : Name) (rt : RecordType) (cache : Cache) (depth : Nat)
  | loop (name : Name) (rt : RecordType) (cache : Cache) (depth : Nat) (servers : List IpAddr)
  | act (name : Name) (rt : RecordType) (cache : Cache) (depth : Nat) (a : StepAction)
  | nsl (depth : Nat) (names : List Name) (cache : Cache)

/-- recursive_lookup_with_cache (resolver.rs lines 223-333) as a
fuel-indexed interpreter over its four mutually recursive pieces; every
recursive call runs at strictly smaller fuel, and exhausted fuel yields a
transport-style error.  .call is the function entry with its depth guard;
.loop is one iteration of the delegation loop against the current servers;
.act dispatches the branch taken on the selected response; .nsl is the
glue-less walk that resolves each NS name for A then AAAA at depth+1. -/
def resolveStepGo (env : Env) (now : Nat) : Nat → RJob → RunOut
  | 0, _ => ⟨.error (), [], [], []⟩
  | fuel+1, .call name rt cache depth =>
    if depth > 10 then ⟨.ok ([], []), cache, [], []⟩
    else resolveStepGo env now fuel (.loop name rt cache depth ROOT_SERVERS)
  | fuel+1, .loop name rt cache depth servers =>
    let qlog := servers.map (fun s => QLog.mk name rt s depth)
    match selectResponse (servers.map (fun s => env name rt s)) with
    | none => ⟨.error (), cache, qlog, []⟩
    | some resp =>
      let r := resolveStepGo env now fuel (.act name rt cache depth (stepOf resp))
      ⟨r.res, r.cache, qlog ++ r.trace, []⟩
  | fuel+1, .act name rt cache depth a =>
    match a with
    | .answered answers auths =>
      match (answers.map Record.ttl).min? with
      | some minTtl =>
        ⟨.ok (answers, auths),
         cacheInsert (step4CacheKey name rt) ⟨answers, now + minTtl⟩ cache, [], []⟩
      | none => ⟨.ok (answers, auths), cache, [], []⟩
    | .chase target => resolveStepGo env now fuel (.call target rt cache (depth + 1))
    | .delegate nsRecs additionals =>
      let nsNames := nsRecs.filterMap (fun r => match r.data with | .ns n => some n | _ => none)
      let glue := nsNames.flatMap (fun nsn =>
        additionals.filterMap (fun ad =>
          if nameEqCI ad.name nsn then extract_ip_from_rdata ad.data else none))
      if glue.isEmpty then
        let sub := resolveStepGo env now fuel (.nsl depth nsNames cache)
        if sub.ips.isEmpty then ⟨.ok ([], nsRecs), sub.cache, sub.trace, []⟩
        else
          let r := resolveStepGo env now fuel (.loop name rt sub.cache depth sub.ips)
          ⟨r.res, r.cache, sub.trace ++ r.trace, []⟩
      else resolveStepGo env now fuel (.loop name rt cache depth glue)
    | .terminal auths => ⟨.ok ([], auths), cache, [], []⟩
  | fuel+1, .nsl depth [] cache => ⟨.ok ([], []), cache, [], []⟩
  | fuel+1, .nsl depth (nsn :: rest) cache =>
    let rA := resolveStepGo env now fuel (.call nsn .A cache (depth + 1))
    let ipsA := match rA.res with
      | .ok (answers, _) => answers.filterMap (fun r => extract_ip_from_rdata r.data)
      | .error _ => []
    let rB := resolveStepGo env now fuel (.call nsn .AAAA rA.cache (depth + 1))
    let ipsB := match rB.res with
      | .ok (answers, _) => answers.filterMap (fun r => extract_ip_from_rdata r.data)
      | .error _ => []
    let rRest := resolveStepGo env now fuel (.nsl depth rest rB.cache)
    ⟨.ok ([], []), rRest.cache, rA.trace ++ rB.trace ++ rRest.trace,
     ipsA ++ ipsB ++ rRest.ips⟩

/-- recursive_lookup_with_cache(name, record_type, cache, depth): run the
function entry job. -/
def recursive_lookup_with_cache (env : Env) (now fuel : Nat) (name : Name)
    (rt : RecordType) (cache : Cache) (depth : Nat) : RunOut :=
  resolveStepGo env now fuel (.call name rt cache depth)

/-- The cache key computed by handle_query at resolver.rs line 188:
(query.name().to_string(), query.query_type()). -/
def handlerCacheKey (q : Query) : CacheKey :=
  (nameToString q.name, q.qtype)

/-- The empty-question response of resolver.rs lines 180-184. -/
def emptyQuestionResponse (req : Message) : Message :=
  { Message.response req.id req.opCode with ra := true }

/-- The cached-hit response of resolver.rs lines 191-197: the first
question plus the cached records, RA set. -/
def cachedResponse (req : Message) (q : Query) (entry : CacheEntry) : Message :=
  { Message.response req.id req.opCode with
      ra := true, queries := [q], answers := entry.records }

/-- The freshly resolved response of resolver.rs lines 206-216: every
question of the request, the resolver's answers and authorities, RA set. -/
def resolvedResponse (req : Message) (answers auths : List Record) : Message :=
  { Message.response req.id req.opCode with
      ra := true, queries := req.queries, answers := answers, nameServers := auths }

/-- The fall-through of handle_query (resolver.rs lines 203-218): call
recursive_lookup_with_cache at depth 0 and build the resolved response; a
resolver error propagates. -/
def handleMiss (env : Env) (fuel now : Nat) (req : Message) (q : Query)
    (cache : Cache) : Except Unit (Message × Cache) :=
  let r := recursive_lookup_with_cache env now fuel q.name q.qtype cache 0
  match r.res with
  | .ok (answers, auths) => .ok (resolvedResponse req answers auths, r.cache)
  | .error _ => .error ()

/-- handle_query (resolver.rs lines 175-219) over the decoded request (the
codec's decode of the datagram; none is a decode failure).  Returns the
response message and the cache after the call, or an error that run_server
turns into ServFail. -/
def handle_query (env : Env) (fuel now : Nat) (request : Option Message)
    (cache : Cache) : Except Unit (Message × Cache) :=
  match request with
  | none => .error ()
  | some req =>
    match req.queries with
    | [] => .ok (emptyQuestionResponse req, cache)
    | q :: _ =>
      let key := handlerCacheKey q
      match cacheGet key cache with
      | some entry =>
        if entry.expiresAt > now then .ok (cachedResponse req q entry, cache)
        else handleMiss env fuel now req q (cacheRemove key cache)
      | none => handleMiss env fuel now req q cache

/-- The reply run_server sends for one datagram (resolver.rs lines
137-167): the handler's response on success; on handler error, re-decode
the request and send Message::error_msg(id, op_code, ServFail) when it
decodes, nothing when it does not. -/
def run_server_reply (env : Env) (fuel now : Nat) (request : Option Message)
    (cache : Cache) : Option Message :=
  match handle_query env fuel now request cache with
  | .ok (m, _) => some m
  | .error _ =>
    match request with
    | some req => some (error_msg req.id req.opCode rcServFail)
    | none => none

/-- The bytes send_udp_query hands to the decoder (resolver.rs lines
345-348): the upstream datagram read into a 512-byte buffer, so anything
past MAX_UDP_PAYLOAD_SIZE is cut off. -/
def send_udp_query_recv (datagram : List Nat) : List Nat :=
  datagram.take MAX_UDP_PAYLOAD_SIZE

/-- Modelled from the spec: the external codec's name emission, RFC 1035
wire format without compression — one length octet plus the label bytes
per label, and the terminating zero octet. -/
def nameWireLen (n : Name) : Nat :=
  (n.labels.map (fun l => l.length + 1)).sum + 1

/-- Modelled from the spec: RDATA length under RFC 1035 — 4 for A, 16 for
AAAA, the target name for NS/CNAME, the carried length otherwise. -/
def rdataWireLen : RData → Nat
  | .a _ => 4
  | .aaaa _ => 16
  | .ns t => nameWireLen t
  | .cname t => nameWireLen t
  | .otherData len => len

/-- Modelled from the spec: a resource record on the wire — owner name,
type, class, TTL, RDLENGTH (10 octets of fixed fields) and the RDATA. -/
def recordWireLen (r : Record) : Nat :=
  nameWireLen r.name + 10 + rdataWireLen r.data

/-- Modelled from the spec: a question on the wire — name, type, class. -/
def queryWireLen (q : Query) : Nat :=
  nameWireLen q.name + 4

/-- Modelled from the spec: the external codec's Message emission size —
the 12-octet header plus every section's entries. -/
def emitSize (m : Message) : Nat :=
  12 + (m.queries.map queryWireLen).sum
    + ((m.answers ++ m.nameServers ++ m.additionals).map recordWireLen).sum

/-- The length of the datagram run_server sends for an encoded response
(resolver.rs lines 140-146): the encoder's full output, with no cap. -/
def run_server_sent_len (m : Message) : Nat := emitSize m

/-- The name the prefetch task resolves (resolver.rs lines 94-96):
name_str.parse() with the root name "." as the fallback for a string that
fails to parse; the parse result of the external codec is the argument. -/
def prefetch_name (parsed : Option Name) : Name :=
  parsed.getD rootName

/-- One prefetch refresh (resolver.rs lines 99-106): resolve the chosen
name with the key's record type at depth 0, and on a successful call whose
answers admit a minimum TTL, insert those answers under the ORIGINAL key
with expiry now + min TTL; otherwise leave the cache as the resolution
left it. -/
def prefetch_refresh (env : Env) (fuel now : Nat) (key : CacheKey)
    (parsed : Option Name) (cache : Cache) : Cache :=
  let nm := prefetch_name parsed
  let r := recursive_lookup_with_cache env now fuel nm key.2 cache 0
  match r.res with
  | .ok (answers, _) =>
    match (answers.map Record.ttl).min? with
    | some minTtl => cacheInsert key ⟨answers, now + minTtl⟩ r.cache
    | none => r.cache
  | .error _ => r.cache

/-- Minimum TTL across a record list, as the step-4 insertion computes it
(0 for an empty list, which step 4 never reaches). -/
def minTtlOf (l : List Record) : Nat :=
  ((l.map Record.ttl).min?).getD 0

/-- Which recursion depths a pending job may log at: the loop and the
dispatch log at their own depth, so they carry the depth bound; a call
guards its own depth and the NS walk only recurses deeper. -/
def jobDepthOK : RJob → Prop
  | .loop _ _ _ d _ => d ≤ 10
  | .act _ _ _ d _ => d ≤ 10
  | _ => True

def c7q : Query := ⟨⟨["nowhere", "invalid"], true⟩, .A⟩

def c7req : Message :=
  { id := 7, opCode := 0, isResponse := false, responseCode := 0, rd := true,
    ra := false, queries := [c7q], answers := [], nameServers := [],
    additionals := [] }

def c7env : Env := fun _ _ _ => .timeout

def c8name : Name := ⟨["example", "com"], true⟩

def c8cnameRec : Record :=
  ⟨c8name, .CNAME, 300, .cname ⟨["example", "net"], true⟩⟩

def c8aRec : Record :=
  ⟨⟨["example", "net"], true⟩, .A, 120, .a (.v4 93 184 216 34)⟩

def c8resp : Message :=
  { id := 5, opCode := 0, isResponse := true, responseCode := 0, rd := false,
    ra := false, queries := [], answers := [c8cnameRec, c8aRec],
    nameServers := [], additionals := [] }

def c8env : Env := fun _ _ _ => .ok c8resp

def c8server : IpAddr := .v4 192 0 2 1

def c10rec : Record := ⟨rootName, .A, 60, .a (.v4 198 41 0 4)⟩

def c10resp : Message :=
  { id := 9, opCode := 0, isResponse := true, responseCode := 0, rd := false,
    ra := false, queries := [], answers := [c10rec], nameServers := [],
    additionals := [] }

def c10env : Env := fun _ _ _ => .ok c10resp

def c10key : CacheKey := ("not a parseable name", .A)

def c4req : Message :=
  { id := 99, opCode := 0, isResponse := false, responseCode := 0, rd := true,
    ra := false, queries := [⟨⟨["nowhere", "invalid"], true⟩, .A⟩],
    answers := [], nameServers := [], additionals := [] }

def c5q : Query := ⟨⟨["example", "com"], true⟩, .A⟩

def c5rec : Record := ⟨⟨["example", "com"], true⟩, .A, 300, .a (.v4 93 184 216 34)⟩

def c5entry : CacheEntry := ⟨[c5rec], 500⟩

def c5cache : Cache := [(handlerCacheKey c5q, c5entry)]

def c5req : Message :=
  { id := 4660, opCode := 0, isResponse := false, responseCode := 0, rd := true,
    ra := false, queries := [c5q], answers := [], nameServers := [],
    additionals := [] }

def c5env : Env := fun _ _ _ => .timeout

def c3nameUpper : Name := ⟨["EXAMPLE", "com"], true⟩

def c3nameLower : Name := ⟨["example", "com"], true⟩

def c2query : Query := ⟨rootName, .A⟩

def c2rec : Record := ⟨rootName, .A, 300, .a (.v4 203 0 113 7)⟩

def c2entry : CacheEntry := ⟨List.replicate 40 c2rec, 1000⟩

def c2cache : Cache := [(handlerCacheKey c2query, c2entry)]

def c2req : Message :=
  { id := 4660, opCode := 0, isResponse := false, responseCode := 0, rd := true,
    ra := false, queries := [c2query], answers := [], nameServers := [],
    additionals := [] }

theorem natMin?_eq_some_iff {xs : List Nat} {a : Nat} :
    xs.min? = some a ↔ a ∈ xs ∧ ∀ b ∈ xs, a ≤ b :=
  List.min?_eq_some_iff (fun a => Nat.le_refl a) (fun a b => min_choice a b)
    (fun _ _ _ => le_min_iff)

theorem minTtl_spec (l : List Record) (h : l ≠ []) :
    (l.map Record.ttl).min? = some (minTtlOf l) := by
  cases l with
  | nil => exact absurd rfl h
  | cons r rs => simp [minTtlOf, List.min?]

theorem selectResponse_eq_none_of_undecodable :
    ∀ outs : List UdpOutcome, (∀ o ∈ outs, decodes? o = none) →
      selectResponse outs = none := by
  intro outs
  induction outs with
  | nil => intro _; rfl
  | cons o rest ih =>
    intro h
    cases o with
    | ok m =>
      have := h (.ok m) (List.mem_cons_self _ _)
      simp [decodes?] at this
    | timeout => exact ih fun o ho => h o (List.mem_cons_of_mem _ ho)
    | garbage => exact ih fun o ho => h o (List.mem_cons_of_mem _ ho)

theorem trace_depth_le (env : Env) (now : Nat) :
    ∀ (fuel : Nat) (j : RJob), jobDepthOK j →
      ∀ e ∈ (resolveStepGo env now fuel j).trace, e.depth ≤ 10 := by
  intro fuel
  induction fuel with
  | zero => intro j hj e he; simp [resolveStepGo] at he
  | succ f ih =>
    intro j hj e he
    cases j with
    | call name rt cache depth =>
      simp only [resolveStepGo] at he
      split at he
      · simp at he
      · next hd =>
          exact ih (.loop name rt cache depth ROOT_SERVERS)
            (show depth ≤ 10 by omega) e he
    | loop name rt cache depth servers =>
      simp only [resolveStepGo] at he
      split at he
      · rcases List.mem_map.1 he with ⟨s, hs, rfl⟩
        exact hj
      · next resp hsel =>
          rcases List.mem_append.1 he with hqs | htr
          · rcases List.mem_map.1 hqs with ⟨s, hs, rfl⟩
            exact hj
          · exact ih (.act name rt cache depth (stepOf resp)) hj e htr
    | act name rt cache depth a =>
      cases a with
      | answered answers auths =>
        simp only [resolveStepGo] at he
        split at he <;> simp at he
      | chase target =>
        simp only [resolveStepGo] at he
        exact ih (.call target rt cache (depth + 1)) trivial e he
      | delegate nsRecs additionals =>
        simp only [resolveStepGo] at he
        split at he
        · split at he
          · exact ih (.nsl depth _ cache) trivial e he
          · rcases List.mem_append.1 he with hs | hl
            · exact ih (.nsl depth _ cache) trivial e hs
            · exact ih (.loop name rt _ depth _) hj e hl
        · exact ih (.loop name rt cache depth _) hj e he
      | terminal auths =>
        simp only [resolveStepGo] at he
        simp at he
    | nsl depth names cache =>
      cases names with
      | nil => simp [resolveStepGo] at he
      | cons nsn rest =>
        simp only [resolveStepGo] at he
        rcases List.mem_append.1 he with hab | hr
        · rcases List.mem_append.1 hab with ha | hb
          · exact ih (.call nsn .A cache (depth + 1)) trivial e ha
          · exact ih (.call nsn .AAAA _ (depth + 1)) trivial e hb
        · exact ih (.nsl depth rest _) trivial e hr

theorem stepTail_ne_chase (resp : Message) (t : Name) : stepTail resp ≠ .chase t := by
  intro h
  unfold stepTail at h
  split at h <;> exact StepAction.noConfusion h

theorem resolveLoop_select_some (env : Env) (now fuel : Nat) (name : Name)
    (rt : RecordType) (cache : Cache) (depth : Nat) (servers : List IpAddr)
    (resp : Message)
    (hsel : selectResponse (servers.map fun s => env name rt s) = some resp) :
    resolveStepGo env now (fuel + 1) (.loop name rt cache depth servers)
      = ⟨(resolveStepGo env now fuel (.act name rt cache depth (stepOf resp))).res,
         (resolveStepGo env now fuel (.act name rt cache depth (stepOf resp))).cache,
         servers.map (fun s => QLog.mk name rt s depth)
           ++ (resolveStepGo env now fuel (.act name rt cache depth (stepOf resp))).trace,
         []⟩ := by
  simp only [resolveStepGo]
  rw [hsel]

theorem resolveAct_answered (env : Env) (now fuel : Nat) (name : Name)
    (rt : RecordType) (cache : Cache) (depth : Nat) (answers auths : List Record)
    (m : Nat) (hmin : (answers.map Record.ttl).min? = some m) :
    resolveStepGo env now (fuel + 1) (.act name rt cache depth (.answered answers auths))
      = ⟨.ok (answers, auths),
         cacheInsert (step4CacheKey name rt) ⟨answers, now + m⟩ cache, [], []⟩ := by
  simp only [resolveStepGo]
  rw [hmin]

/-- Claim C1: in recursive_lookup_with_cache, the CNAME branch restarts the
resolution as resolve(cname_target, original_type, depth+1), preserving the
query type and returning the chained call's result verbatim; and the branch
fires exactly when the answer section is empty yet contains a CNAME record
(the section the code inspects is the answer section itself), which is
never. -/
theorem claim_C1_cname_restart :
    (∀ (resp : Message) (t : Name),
      stepOf resp = .chase t ↔
        resp.answers = [] ∧ resp.answers.any (fun r => r.rtype == RecordType.CNAME)) ∧
    (∀ (env : Env) (now fuel : Nat) (name : Name) (rt : RecordType)
        (cache : Cache) (depth : Nat) (t : Name),
      resolveStepGo env now (fuel + 1) (.act name rt cache depth (.chase t))
        = recursive_lookup_with_cache env now fuel t rt cache (depth + 1)) := by
  constructor
  · intro resp t
    constructor
    · intro h
      exfalso
      cases hA : resp.answers with
      | nil =>
        have h2 : stepTail resp = .chase t := by simpa [stepOf, hA] using h
        exact stepTail_ne_chase resp t h2
      | cons r rs => simp [stepOf, hA] at h
    · rintro ⟨hA, hany⟩
      rw [hA] at hany
      simp at hany
  · intro env now fuel name rt cache depth t
    rfl

/-- Claim C6: step 3 awaits the per-server queries sequentially in list
order and keeps the first outcome that decodes as a Message — matching the
spec's first-successfully-decoded-in-submission-order rule — accepting any
decoded message without comparing its id or question, and the loop
continues from exactly that selection. -/
theorem claim_C6_first_decoded_selection :
    (∀ outs : List UdpOutcome, selectResponse outs = specFirstDecoded outs) ∧
    (∀ (m : Message) (rest : List UdpOutcome), selectResponse (.ok m :: rest) = some m) ∧
    (∀ (env : Env) (now fuel : Nat) (name : Name) (rt : RecordType) (cache : Cache)
        (depth : Nat) (servers : List IpAddr) (resp : Message),
      selectResponse (servers.map fun s => env name rt s) = some resp →
      resolveStepGo env now (fuel + 1) (.loop name rt cache depth servers)
        = ⟨(resolveStepGo env now fuel (.act name rt cache depth (stepOf resp))).res,
           (resolveStepGo env now fuel (.act name rt cache depth (stepOf resp))).cache,
           servers.map (fun s => QLog.mk name rt s depth)
             ++ (resolveStepGo env now fuel (.act name rt cache depth (stepOf resp))).trace,
           []⟩) := by
  refine ⟨?_, ?_, ?_⟩
  · intro outs
    induction outs with
    | nil => rfl
    | cons o rest ih =>
      cases o with
      | ok m => simp [selectResponse, specFirstDecoded, decodes?, List.findSome?_cons]
      | timeout => simpa [selectResponse, specFirstDecoded, decodes?, List.findSome?_cons] using ih
      | garbage => simpa [selectResponse, specFirstDecoded, decodes?, List.findSome?_cons] using ih
  · intro m rest
    rfl
  · intro env now fuel name rt cache depth servers resp hsel
    simp only [resolveStepGo]
    rw [hsel]

/-- Claim C7: when every server of an iteration yields no decodable
response, the resolver returns a transport error rather than an empty
success, and for a decodable single-question request the server replies
with exactly one ServFail carrying the request's id and op-code. -/
theorem claim_C7_all_fail_servfail :
    ∀ (env : Env) (now fuel : Nat) (req : Message) (q : Query) (rest : List Query)
      (cache : Cache),
      (∀ s ∈ ROOT_SERVERS, decodes? (env q.name q.qtype s) = none) →
      req.queries = q :: rest →
      cacheGet (handlerCacheKey q) cache = none →
      (recursive_lookup_with_cache env now (fuel + 2) q.name q.qtype cache 0).res
          = .error () ∧
      run_server_reply env (fuel + 2) now (some req) cache
        = some (error_msg req.id req.opCode rcServFail) := by
  intro env now fuel req q rest cache hud hq hmiss
  have hsel : selectResponse (ROOT_SERVERS.map fun s => env q.name q.qtype s) = none := by
    apply selectResponse_eq_none_of_undecodable
    intro o ho
    rcases List.mem_map.1 ho with ⟨s, hs, rfl⟩
    exact hud s hs
  have hres : (recursive_lookup_with_cache env now (fuel + 2) q.name q.qtype cache 0).res
      = .error () := by
    show (resolveStepGo env now (fuel + 1 + 1) (.call q.name q.qtype cache 0)).res = .error ()
    simp only [resolveStepGo]
    rw [if_neg (by omega)]
    rw [hsel]
  refine ⟨hres, ?_⟩
  simp only [run_server_reply, handle_query, hq, hmiss, handleMiss]
  rw [hres]

theorem claim_C7_witness :
    (recursive_lookup_with_cache c7env 0 (0 + 2) c7q.name c7q.qtype [] 0).res
        = .error () ∧
    run_server_reply c7env (0 + 2) 0 (some c7req) []
      = some (error_msg c7req.id c7req.opCode rcServFail) :=
  claim_C7_all_fail_servfail c7env 0 0 c7req c7q [] [] (fun s _ => rfl) rfl rfl

/-- Claim C9: a call with depth above 10 returns empty answers and
authorities successfully, leaving the cache untouched and issuing no
upstream query; and since every internal recursive call deepens by one
behind that guard, no upstream query of any resolution is ever issued at a
recursion depth above 10. -/
theorem claim_C9_depth_guard :
    ∀ (env : Env) (now fuel : Nat) (name : Name) (rt : RecordType) (cache : Cache)
      (depth : Nat),
      (depth > 10 →
        recursive_lookup_with_cache env now (fuel + 1) name rt cache depth
          = ⟨.ok ([], []), cache, [], []⟩) ∧
      (∀ e ∈ (recursive_lookup_with_cache env now fuel name rt cache depth).trace,
        e.depth ≤ 10) := by
  intro env now fuel name rt cache depth
  constructor
  · intro hd
    show resolveStepGo env now (fuel + 1) (.call name rt cache depth) = _
    simp only [resolveStepGo, if_pos hd]
  · intro e he
    exact trace_depth_le env now fuel (.call name rt cache depth) trivial e he

/-- Claim C8: a resolve iteration whose selected response has a non-empty
answer section inserts, under the key (original name, original type), the
verbatim answer set with expiry now plus the minimum TTL across all answer
records — the minimum ranging over every record regardless of its type —
and returns (answers, response.authorities). -/
theorem claim_C8_answer_acceptance :
    ∀ (env : Env) (now fuel : Nat) (name : Name) (rt : RecordType) (cache : Cache)
      (depth : Nat) (servers : List IpAddr) (resp : Message),
      selectResponse (servers.map fun s => env name rt s) = some resp →
      resp.answers ≠ [] →
      resolveStepGo env now (fuel + 2) (.loop name rt cache depth servers)
        = ⟨.ok (resp.answers, resp.nameServers),
           cacheInsert (step4CacheKey name rt)
             ⟨resp.answers, now + minTtlOf resp.answers⟩ cache,
           servers.map (fun s => QLog.mk name rt s depth), []⟩ ∧
      (resp.answers.map Record.ttl).min? = some (minTtlOf resp.answers) ∧
      (∀ r ∈ resp.answers, minTtlOf resp.answers ≤ r.ttl) ∧
      (∃ r ∈ resp.answers, r.ttl = minTtlOf resp.answers) := by
  intro env now fuel name rt cache depth servers resp hsel hne
  have hmin := minTtl_spec resp.answers hne
  have hiff := natMin?_eq_some_iff.1 hmin
  have hstep : stepOf resp = .answered resp.answers resp.nameServers := by
    cases hA : resp.answers with
    | nil => exact absurd hA hne
    | cons r rs => simp [stepOf, hA]
  refine ⟨?_, hmin, ?_, ?_⟩
  · show resolveStepGo env now (fuel + 1 + 1) (.loop name rt cache depth servers) = _
    rw [resolveLoop_select_some env now (fuel + 1) name rt cache depth servers resp hsel,
        hstep,
        resolveAct_answered env now fuel name rt cache depth resp.answers
          resp.nameServers (minTtlOf resp.answers) hmin]
    simp
  · intro r hr
    exact hiff.2 r.ttl (List.mem_map_of_mem Record.ttl hr)
  · rcases List.mem_map.1 hiff.1 with ⟨r, hr, h⟩
    exact ⟨r, hr, h⟩

theorem claim_C8_witness :
    resolveStepGo c8env 1000 2 (.loop c8name .A [] 0 [c8server])
      = ⟨.ok (c8resp.answers, c8resp.nameServers),
         cacheInsert (step4CacheKey c8name .A)
           ⟨c8resp.answers, 1000 + minTtlOf c8resp.answers⟩ [],
         [⟨c8name, .A, c8server, 0⟩], []⟩ ∧
    (c8resp.answers.map Record.ttl).min? = some (minTtlOf c8resp.answers) ∧
    (∀ r ∈ c8resp.answers, minTtlOf c8resp.answers ≤ r.ttl) ∧
    (∃ r ∈ c8resp.answers, r.ttl = minTtlOf c8resp.answers) := by
  have h := claim_C8_answer_acceptance c8env 1000 0 c8name .A [] 0 [c8server] c8resp
    rfl (by decide)
  simpa using h

/-- Claim C10: a prefetch refresh for a cached key whose name string fails
to parse resolves the root name "." with the key's record type, and when
that resolution returns a non-empty answer set it overwrites the entry
under the original key with those answers and expiry now plus their
minimum TTL. -/
theorem claim_C10_prefetch_root_fallback :
    ∀ (env : Env) (fuel now : Nat) (key : CacheKey) (cache : Cache)
      (answers auths : List Record),
      (recursive_lookup_with_cache env now fuel rootName key.2 cache 0).res
          = .ok (answers, auths) →
      answers ≠ [] →
      prefetch_name none = rootName ∧
      prefetch_refresh env fuel now key none cache
        = cacheInsert key ⟨answers, now + minTtlOf answers⟩
            (recursive_lookup_with_cache env now fuel rootName key.2 cache 0).cache := by
  intro env fuel now key cache answers auths hres hne
  refine ⟨rfl, ?_⟩
  have hmin := minTtl_spec answers hne
  simp only [prefetch_refresh, prefetch_name, Option.getD]
  rw [hres]
  simp only [hmin]

theorem claim_C10_witness :
    prefetch_name none = rootName ∧
    prefetch_refresh c10env 3 0 c10key none []
      = cacheInsert c10key ⟨[c10rec], 0 + minTtlOf [c10rec]⟩
          (recursive_lookup_with_cache c10env 0 3 rootName c10key.2 [] 0).cache :=
  claim_C10_prefetch_root_fallback c10env 3 0 c10key [] [c10rec] [] (by decide) (by decide)

theorem handleMiss_ok_fields (env : Env) (fuel now : Nat) (req : Message) (q : Query)
    (cache : Cache) (m : Message) (c : Cache)
    (h : handleMiss env fuel now req q cache = .ok (m, c)) :
    m.id = req.id ∧ m.opCode = req.opCode ∧ m.ra = true ∧ m.queries = req.queries := by
  simp only [handleMiss] at h
  split at h
  · simp only [Except.ok.injEq, Prod.mk.injEq] at h
    obtain ⟨rfl, rfl⟩ := h
    exact ⟨rfl, rfl, rfl, rfl⟩
  · exact Except.noConfusion h

/-- Claim C4 (amended): every successful handler response carries the
request's id and op-code and has recursion-available set, and on the
single-question path its question section copies the request's; the
ServFail reply built on handler failure carries the request's id and
op-code but, being built by Message::error_msg, has recursion-available
clear. -/
theorem claim_C4_response_header :
    ∀ (env : Env) (fuel now : Nat) (req : Message) (cache : Cache),
      (∀ m c, handle_query env fuel now (some req) cache = .ok (m, c) →
        m.id = req.id ∧ m.opCode = req.opCode ∧ m.ra = true) ∧
      (∀ q, req.queries = [q] →
        ∀ m c, handle_query env fuel now (some req) cache = .ok (m, c) →
          m.queries = req.queries) ∧
      (handle_query env fuel now (some req) cache = .error () →
        run_server_reply env fuel now (some req) cache
          = some (error_msg req.id req.opCode rcServFail) ∧
        (error_msg req.id req.opCode rcServFail).id = req.id ∧
        (error_msg req.id req.opCode rcServFail).opCode = req.opCode ∧
        (error_msg req.id req.opCode rcServFail).ra = false) := by
  intro env fuel now req cache
  refine ⟨?_, ?_, ?_⟩
  · intro m c h
    simp only [handle_query] at h
    split at h
    · simp only [Except.ok.injEq, Prod.mk.injEq] at h
      obtain ⟨rfl, rfl⟩ := h
      exact ⟨rfl, rfl, rfl⟩
    · next q qs =>
        split at h
        · split at h
          · simp only [Except.ok.injEq, Prod.mk.injEq] at h
            obtain ⟨rfl, rfl⟩ := h
            exact ⟨rfl, rfl, rfl⟩
          · have hf := handleMiss_ok_fields _ _ _ _ _ _ _ _ h
            exact ⟨hf.1, hf.2.1, hf.2.2.1⟩
        · have hf := handleMiss_ok_fields _ _ _ _ _ _ _ _ h
          exact ⟨hf.1, hf.2.1, hf.2.2.1⟩
  · intro q hq m c h
    rcases req with ⟨rid, ropc, risR, rrc, rrd, rra, rqueries, rans, rnss, radds⟩
    have hq2 : rqueries = [q] := hq
    subst hq2
    simp only [handle_query] at h
    split at h
    · split at h
      · simp only [Except.ok.injEq, Prod.mk.injEq] at h
        obtain ⟨rfl, rfl⟩ := h
        rfl
      · exact (handleMiss_ok_fields _ _ _ _ _ _ _ _ h).2.2.2
    · exact (handleMiss_ok_fields _ _ _ _ _ _ _ _ h).2.2.2
  · intro herr
    refine ⟨?_, rfl, rfl, rfl⟩
    simp only [run_server_reply, herr]

theorem claim_C4_counterexample :
    run_server_reply (fun _ _ _ => .timeout) 2 0 (some c4req) []
      = some (error_msg 99 0 rcServFail) ∧
    (error_msg 99 0 rcServFail).ra = false := by
  constructor <;> decide

/-- Claim C5 (amended): a cached entry is served exactly while
now < expires_at (the spec's boundary case now = expires_at is NOT served);
at now ≥ expires_at the handler removes the entry and falls through to a
fresh resolution, so the reply is then a freshly resolved answer or
ServFail, never the removed records. -/
theorem claim_C5_fresh_or_servfail :
    ∀ (env : Env) (fuel now : Nat) (req : Message) (q : Query) (rest : List Query)
      (cache : Cache) (e : CacheEntry),
      req.queries = q :: rest →
      cacheGet (handlerCacheKey q) cache = some e →
      ((now < e.expiresAt →
          handle_query env fuel now (some req) cache
            = .ok (cachedResponse req q e, cache)) ∧
       (e.expiresAt ≤ now →
          handle_query env fuel now (some req) cache
            = handleMiss env fuel now req q (cacheRemove (handlerCacheKey q) cache))) := by
  intro env fuel now req q rest cache e hq hget
  constructor
  · intro hlt
    simp only [handle_query, hq, hget]
    rw [if_pos hlt]
  · intro hge
    simp only [handle_query, hq, hget]
    rw [if_neg (by omega)]

theorem claim_C5_witness :
    (handle_query c5env 3 100 (some c5req) c5cache
      = .ok (cachedResponse c5req c5q c5entry, c5cache)) ∧
    (handle_query c5env 3 900 (some c5req) c5cache
      = handleMiss c5env 3 900 c5req c5q (cacheRemove (handlerCacheKey c5q) c5cache)) :=
  ⟨(claim_C5_fresh_or_servfail c5env 3 100 c5req c5q [] c5cache c5entry rfl rfl).1
      (by decide),
   (claim_C5_fresh_or_servfail c5env 3 900 c5req c5q [] c5cache c5entry rfl rfl).2
      (by decide)⟩

theorem claim_C5_counterexample :
    cacheGet (handlerCacheKey c5q) c5cache = some c5entry ∧
    c5entry.expiresAt = 500 ∧
    handle_query c5env 3 500 (some c5req) c5cache = .error () ∧
    run_server_reply c5env 3 500 (some c5req) c5cache
      = some (error_msg c5req.id c5req.opCode rcServFail) := by
  refine ⟨rfl, rfl, ?_, ?_⟩ <;> decide

/-- Claim C3 (amended): both the handler's cache key and the resolver's
step-4 insertion key are the verbatim Display rendering of the very Name
being resolved paired with the query type — so within one resolution the
lookup key equals the insertion key and a lookup finds the insertion —
but the rendering preserves letter case and the fqdn dot, with no
lower-casing normalisation. -/
theorem claim_C3_verbatim_cache_key :
    (∀ (name : Name) (rt : RecordType),
      step4CacheKey name rt = handlerCacheKey ⟨name, rt⟩) ∧
    (∀ (k : CacheKey) (e : CacheEntry) (c : Cache),
      cacheGet k (cacheInsert k e c) = some e) := by
  constructor
  · intro name rt
    rfl
  · intro k e c
    simp [cacheGet, cacheInsert, cacheRemove]

theorem claim_C3_counterexample :
    (c3nameUpper.labels.map (fun l => l.toList.map Char.toLower)
       = c3nameLower.labels.map (fun l => l.toList.map Char.toLower) ∧
     c3nameUpper.isFqdn = c3nameLower.isFqdn) ∧
    handlerCacheKey ⟨c3nameUpper, .A⟩ ≠ handlerCacheKey ⟨c3nameLower, .A⟩ ∧
    cacheGet (handlerCacheKey ⟨c3nameUpper, .A⟩)
      (cacheInsert (handlerCacheKey ⟨c3nameLower, .A⟩) ⟨[], 5⟩ []) = none := by
  refine ⟨⟨?_, rfl⟩, ?_, ?_⟩ <;> decide

/-- Claim C2 (amended): both receive paths read into 512-byte buffers, so
an upstream response longer than MAX_UDP_PAYLOAD_SIZE is truncated at the
decode boundary, and an upstream query (one question whose encoded name
respects the 255-octet DNS bound) encodes to at most 512 bytes; but the
datagram run_server sends back to a client is the encoder's full output
with no length cap. -/
theorem claim_C2_payload_bounds :
    (∀ datagram : List Nat,
      (send_udp_query_recv datagram).length ≤ MAX_UDP_PAYLOAD_SIZE) ∧
    (∀ (id : Nat) (name : Name) (rt : RecordType),
      nameWireLen name ≤ 255 →
      emitSize (build_upstream_request id name rt) ≤ MAX_UDP_PAYLOAD_SIZE) ∧
    (∀ m : Message, run_server_sent_len m = emitSize m) := by
  refine ⟨?_, ?_, ?_⟩
  · intro d
    simp [send_udp_query_recv, MAX_UDP_PAYLOAD_SIZE]
  · intro id name rt h
    simp [emitSize, build_upstream_request, queryWireLen, MAX_UDP_PAYLOAD_SIZE]
    omega
  · intro m
    rfl

theorem claim_C2_counterexample :
    run_server_reply (fun _ _ _ => .timeout) 2 0 (some c2req) c2cache
      = some (cachedResponse c2req c2query c2entry) ∧
    512 < run_server_sent_len (cachedResponse c2req c2query c2entry) := by
  constructor <;> decide

end AstracatDns
